import Mathlib

/-!
Shallow embedding of the todaybox recurring-task core: the calendar
arithmetic backing `Temporal.PlainDate`, the recurrence resolver, the task
lifecycle operations of `src/server.tsx`, the view projections, the
validation coercions of `src/validation.ts`, and the tray-menu model
builder.  Instants (`Temporal.Instant`) are modelled as epoch milliseconds
(`Int`); calendar dates as year/month/day records over the proleptic
Gregorian calendar, the calendar `Temporal` uses for ISO dates.
-/

/-- Proleptic Gregorian calendar date; models `Temporal.PlainDate`. -/
structure PlainDate where
  year : Int
  month : Int
  day : Int
deriving DecidableEq

/-- Gregorian leap-year rule (the rule `Temporal`'s ISO calendar uses). -/
def isLeapYear (y : Int) : Bool :=
  (y % 4 == 0 && y % 100 != 0) || y % 400 == 0

/-- Number of days in a month; models `Temporal.PlainYearMonth.daysInMonth`. -/
def daysInMonth (y m : Int) : Int :=
  if m = 2 then (if isLeapYear y then 29 else 28)
  else if m = 4 ∨ m = 6 ∨ m = 9 ∨ m = 11 then 30
  else 31

/-- A structurally valid calendar date. -/
def PlainDate.Valid (d : PlainDate) : Prop :=
  1 ≤ d.month ∧ d.month ≤ 12 ∧ 1 ≤ d.day ∧ d.day ≤ daysInMonth d.year d.month

instance (d : PlainDate) : Decidable d.Valid := by
  unfold PlainDate.Valid; infer_instance

/-- Days since 1970-01-01 of a date (rata-die with floor division; `/` and
`%` on `Int` are floor-convention for these positive divisors). -/
def toEpochDays (d : PlainDate) : Int :=
  let y := if d.month ≤ 2 then d.year - 1 else d.year
  let mp := (d.month + 9) % 12
  let doy := (153 * mp + 2) / 5 + d.day - 1
  365 * y + y / 4 - y / 100 + y / 400 + doy - 719468

/-- Successor date in the Gregorian calendar. -/
def nextDay (d : PlainDate) : PlainDate :=
  if d.day < daysInMonth d.year d.month then ⟨d.year, d.month, d.day + 1⟩
  else if d.month < 12 then ⟨d.year, d.month + 1, 1⟩
  else ⟨d.year + 1, 1, 1⟩

/-- Predecessor date in the Gregorian calendar. -/
def prevDay (d : PlainDate) : PlainDate :=
  if 1 < d.day then ⟨d.year, d.month, d.day - 1⟩
  else if 1 < d.month then ⟨d.year, d.month - 1, daysInMonth d.year (d.month - 1)⟩
  else ⟨d.year - 1, 12, 31⟩

/-- Add a non-negative number of days by iterating the successor. -/
def addDays (d : PlainDate) : Nat → PlainDate
  | 0 => d
  | n + 1 => nextDay (addDays d n)

/-- Subtract a non-negative number of days by iterating the predecessor. -/
def subDays (d : PlainDate) : Nat → PlainDate
  | 0 => d
  | n + 1 => prevDay (subDays d n)

/-- Models `plainDate.add({ days: k })` / `plainDate.subtract({ days: -k })`. -/
def addDaysInt (d : PlainDate) (k : Int) : PlainDate :=
  if 0 ≤ k then addDays d k.toNat else subDays d (-k).toNat

/-- ISO day of week, Monday = 1 .. Sunday = 7; models `plainDate.dayOfWeek`
(1970-01-01 was a Thursday, day-of-week 4). -/
def dayOfWeek (d : PlainDate) : Int :=
  (toEpochDays d + 3) % 7 + 1

/-- Models `Temporal.PlainDate.compare`: compares the ISO fields
year, then month, then day, returning -1, 0 or 1. -/
def dateCompare (a b : PlainDate) : Int :=
  if a.year < b.year then -1
  else if b.year < a.year then 1
  else if a.month < b.month then -1
  else if b.month < a.month then 1
  else if a.day < b.day then -1
  else if b.day < a.day then 1
  else 0

/-- Models `plainDate.add({ months: 1 })` with the default `constrain`
overflow behaviour: bump the month (rolling the year), clamping the day to
the target month's length. -/
def addMonthsOne (d : PlainDate) : PlainDate :=
  if d.month = 12 then ⟨d.year + 1, 1, min d.day (daysInMonth (d.year + 1) 1)⟩
  else ⟨d.year, d.month + 1, min d.day (daysInMonth d.year (d.month + 1))⟩

/-- Insert into a sorted list, placing the new element before the first
element it does not strictly follow (so equal elements keep the earlier
element first). -/
def jsInsert (cmp : α → α → Int) (x : α) : List α → List α
  | [] => [x]
  | y :: ys => if cmp x y ≤ 0 then x :: y :: ys else y :: jsInsert cmp x ys

/-- Stable insertion sort.  Models `Array.prototype.sort(comparator)`:
ECMAScript requires the sort to be stable, and for a consistent comparator
the stable sorted permutation is unique, so any stable sort is an exact
model.  All comparators in this file are consistent (they are sign
functions of total preorders). -/
def jsSort (cmp : α → α → Int) : List α → List α
  | [] => []
  | x :: xs => jsInsert cmp x (jsSort cmp xs)

/-- Comparator `(a, b) => a - b` used by the source on number arrays. -/
def subCompare (a b : Int) : Int := a - b

/-- Models `[...new Set(xs)]`: deduplicate keeping first occurrences. -/
def dedupFirstAux : List Int → List Int → List Int
  | _, [] => []
  | seen, x :: xs =>
      if x ∈ seen then dedupFirstAux seen xs
      else x :: dedupFirstAux (x :: seen) xs

/-- Deduplicate a list of integers, keeping the first occurrence of each. -/
def dedupFirst (l : List Int) : List Int := dedupFirstAux [] l

/-- Characters removed by JavaScript `String.prototype.trim` (the ASCII
whitespace subset; the exotic Unicode space separators are not modelled). -/
def isJsWhitespace (c : Char) : Bool :=
  c == ' ' || c == '\t' || c == '\n' || c == '\r' || c.toNat == 11 || c.toNat == 12

/-- Models `String.prototype.trim`. -/
def jsTrim (s : String) : String :=
  String.mk (((s.toList.dropWhile isJsWhitespace).reverse.dropWhile isJsWhitespace).reverse)

/-- Models `memoSchema` of `src/validation.ts`: trim, then truncate to the
first 2000 UTF-16 units (modelled as characters). -/
def parseMemo (s : String) : String :=
  String.mk ((jsTrim s).toList.take 2000)

/-- Models `weeklyWeekdaysSchema` of `src/validation.ts` after the
string-to-number coercion: keep integers in 0..6, deduplicate via `Set`,
sort ascending with `(a, b) => a - b`. -/
def parseWeeklyWeekdays (raw : List Int) : List Int :=
  jsSort subCompare (dedupFirst (raw.filter (fun w => 0 ≤ w && w ≤ 6)))

/-- Models `monthlyDaySchema` of `src/validation.ts` after the
string-to-number coercion: keep an integer in 1..31, else absent. -/
def parseMonthlyDay : Option Int → Option Int
  | none => none
  | some n => if 1 ≤ n ∧ n ≤ 31 then some n else none

/-- Recurrence rule; models the `RecurrenceSetting` tagged union. -/
inductive RecurrenceSetting where
  | weekly (weekdays : List Int)
  | monthly (dayOfMonth : Int)
deriving DecidableEq

/-- The `recurrenceType` form field. -/
inductive RecurrenceType where
  | noRule
  | weekly
  | monthly
deriving DecidableEq

/-- Models `buildRecurrenceSetting` of `src/server.tsx` over already
validated fields.  The `form.monthlyDay &&` truthiness test is false for
`undefined` and for `0`. -/
def buildRecurrenceSetting (recurrenceType : RecurrenceType)
    (weeklyWeekdays : List Int) (monthlyDay : Option Int) : Option RecurrenceSetting :=
  if recurrenceType = RecurrenceType.weekly ∧ 0 < weeklyWeekdays.length then
    some (RecurrenceSetting.weekly weeklyWeekdays)
  else
    match recurrenceType, monthlyDay with
    | RecurrenceType.monthly, some d =>
        if d = 0 then none else some (RecurrenceSetting.monthly d)
    | _, _ => none

/-- Models `resolveMonthlyDay`: clamp a day-of-month to the month length. -/
def resolveMonthlyDay (year month dayOfMonth : Int) : Int :=
  min dayOfMonth (daysInMonth year month)

/-- One weekly offset of `calculateNextDueDateFromRecurrence`:
`(weekday - currentWeekday + 7) % 7`, mapping 0 to 7.  On the validated
weekdays 0..6 the JavaScript remainder agrees with `%` here because the
dividend is non-negative. -/
def weeklyOffset (currentWeekday weekday : Int) : Int :=
  let diff := (weekday - currentWeekday + 7) % 7
  if diff = 0 then 7 else diff

/-- Models `calculateNextDueDateFromRecurrence` of `src/server.tsx`. -/
def calculateNextDueDateFromRecurrence (recurrence : RecurrenceSetting)
    (base : PlainDate) : Option PlainDate :=
  match recurrence with
  | RecurrenceSetting.weekly weekdays =>
      let currentWeekday := dayOfWeek base % 7
      let offsets := jsSort subCompare (weekdays.map (weeklyOffset currentWeekday))
      match offsets.head? with
      | none => none
      | some nextOffset => some (addDaysInt base nextOffset)
  | RecurrenceSetting.monthly dayOfMonth =>
      let thisMonthDay := resolveMonthlyDay base.year base.month dayOfMonth
      let candidate : PlainDate := ⟨base.year, base.month, thisMonthDay⟩
      if dateCompare candidate base ≤ 0 then
        let nextMonth := addMonthsOne base
        let nextMonthDay := resolveMonthlyDay nextMonth.year nextMonth.month dayOfMonth
        some ⟨nextMonth.year, nextMonth.month, nextMonthDay⟩
      else some candidate

/-- A task; models the `Todo` record of `src/server.tsx`.  The optional
boolean fields keep their absent state (`none`), since the code
distinguishes clearing `hasGeneratedNextOccurrence` from setting it false. -/
structure Todo where
  id : String
  title : String
  completed : Bool
  createdAt : Int
  completedAt : Option Int := none
  recurrence : Option RecurrenceSetting := none
  hasGeneratedNextOccurrence : Option Bool := none
  dueDate : Option PlainDate := none
  isToday : Option Bool := none
  memo : Option String := none
deriving DecidableEq

/-- JavaScript truthiness of an optional boolean field. -/
def truthy (b : Option Bool) : Bool := b.getD false

/-- Models `completeTodoAndMaybeGenerateNext` of `src/server.tsx`.  The
wall-clock sibling creation instant and random sibling id are explicit
parameters.  Returns the mutated task and the generated sibling, if any. -/
def completeTodoAndMaybeGenerateNext (todo : Todo) (completedAt : Int)
    (baseDate : PlainDate) (nextId : String) (nextCreatedAt : Int) :
    Todo × Option Todo :=
  let todo := { todo with completed := true, completedAt := some completedAt }
  match todo.recurrence with
  | none => (todo, none)
  | some recurrence =>
      if truthy todo.hasGeneratedNextOccurrence then (todo, none)
      else
        match calculateNextDueDateFromRecurrence recurrence baseDate with
        | none => (todo, none)
        | some nextDueDate =>
            ({ todo with hasGeneratedNextOccurrence := some true },
             some { id := nextId, title := todo.title, completed := false,
                    createdAt := nextCreatedAt, completedAt := none,
                    recurrence := some recurrence,
                    hasGeneratedNextOccurrence := some false,
                    dueDate := some nextDueDate, isToday := some false,
                    memo := todo.memo })

/-- Replace the first element satisfying `p` (in-place mutation of the
element `Array.prototype.find` returned). -/
def updateFirst (p : α → Bool) (f : α → α) : List α → List α
  | [] => []
  | x :: xs => if p x then f x :: xs else x :: updateFirst p f xs

/-- Models the `POST /todos/:id/toggle` route.  `instantToLocalDate` models
`instant.toZonedDateTimeISO(timeZone).toPlainDate()` for the ambient time
zone; `now`, `nextId` and `nextCreatedAt` model the wall clock and random
id generation.  The boolean reports whether `notifyTodosChanged` ran. -/
def toggleTodoOp (todos : List Todo) (id : String) (now : Int)
    (instantToLocalDate : Int → PlainDate) (nextId : String)
    (nextCreatedAt : Int) : List Todo × Bool :=
  match List.find? (fun t => t.id == id) todos with
  | none => (todos, false)
  | some todo =>
      if !todo.completed then
        let recurrenceBaseDate := todo.dueDate.getD (instantToLocalDate todo.createdAt)
        let toggled := { todo with completed := true }
        let result := completeTodoAndMaybeGenerateNext toggled now recurrenceBaseDate nextId nextCreatedAt
        (updateFirst (fun t => t.id == id) (fun _ => result.1) todos ++ result.2.toList, true)
      else
        (updateFirst (fun t => t.id == id)
          (fun _ => { todo with completed := false, completedAt := none }) todos, true)

/-- Models the `POST /todos/:id/today` route (`todo.isToday = !todo.isToday`;
JavaScript negation of an absent field yields `true`). -/
def toggleTodayOp (todos : List Todo) (id : String) : List Todo × Bool :=
  match List.find? (fun t => t.id == id) todos with
  | none => (todos, false)
  | some todo =>
      (updateFirst (fun t => t.id == id)
        (fun _ => { todo with isToday := some (!truthy todo.isToday) }) todos, true)

/-- Models the `POST /todos/:id/due` route. -/
def setDueDateOp (todos : List Todo) (id : String) (dueDate : Option PlainDate) :
    List Todo × Bool :=
  match List.find? (fun t => t.id == id) todos with
  | none => (todos, false)
  | some todo =>
      (updateFirst (fun t => t.id == id) (fun _ => { todo with dueDate := dueDate }) todos, true)

/-- The recurrence form body after zod validation-level coercion:
`weeklyWeekdays` holds the numeric values before the range filter,
`monthlyDay` the parsed number if any. -/
structure RecurrenceForm where
  recurrenceType : RecurrenceType
  weeklyWeekdays : List Int
  monthlyDay : Option Int

/-- Models the `POST /todos/:id/recurrence` route.  The source compares
`JSON.stringify(todo.recurrence ?? null)` with the stringified new rule;
on values built by these constructors (fixed key order) string equality
coincides with structural equality, which is how the comparison is
modelled. -/
def setRecurrenceOp (todos : List Todo) (id : String) (form : RecurrenceForm) :
    List Todo × Bool :=
  match List.find? (fun t => t.id == id) todos with
  | none => (todos, false)
  | some _ =>
      let recurrence := buildRecurrenceSetting form.recurrenceType
        (parseWeeklyWeekdays form.weeklyWeekdays) (parseMonthlyDay form.monthlyDay)
      (updateFirst (fun t => t.id == id)
        (fun todo =>
          if recurrence = none then
            { todo with recurrence := recurrence, hasGeneratedNextOccurrence := none }
          else if todo.recurrence ≠ recurrence then
            { todo with recurrence := recurrence, hasGeneratedNextOccurrence := some false }
          else { todo with recurrence := recurrence }) todos, true)

/-- Models the `POST /todos/:id/delete` route: `findIndex` finds the first
match and `splice(index, 1)` removes it, which is removing the first
element satisfying the predicate. -/
def deleteTodoOp (todos : List Todo) (id : String) : List Todo × Bool :=
  if todos.any (fun t => t.id == id) then (todos.eraseP (fun t => t.id == id), true)
  else (todos, false)

/-- The create form body (`createTodoFormSchema`), with `title` and `memo`
still raw strings; the date and recurrence fields are taken after their
coercions. -/
structure CreateTodoForm where
  title : String
  dueDate : Option PlainDate
  memo : String
  isToday : Bool
  recurrenceType : RecurrenceType
  weeklyWeekdays : List Int
  monthlyDay : Option Int
  filter : String

/-- Models the `POST /todos` route: trims the title, stores the trimmed and
truncated memo (empty coerced to absent by `memo || undefined`), and only
appends when the title is non-empty (truthy). -/
def createTodoOp (todos : List Todo) (body : CreateTodoForm) (createdAt : Int)
    (newId : String) : List Todo × Bool :=
  let title := jsTrim body.title
  let memo := parseMemo body.memo
  let isToday := body.isToday || body.filter == "today"
  let recurrence := buildRecurrenceSetting body.recurrenceType
    (parseWeeklyWeekdays body.weeklyWeekdays) (parseMonthlyDay body.monthlyDay)
  if title ≠ "" then
    (todos ++ [{ id := newId, title := title, completed := false,
                 createdAt := createdAt, completedAt := none,
                 recurrence := recurrence, hasGeneratedNextOccurrence := some false,
                 dueDate := body.dueDate, isToday := some isToday,
                 memo := if memo = "" then none else some memo }], true)
  else (todos, false)

/-- Models `toDueTimestamp`: `none` stands for `Number.POSITIVE_INFINITY`;
a date parses (`Date.parse` of its ISO string) to UTC-midnight epoch
milliseconds. -/
def toDueTimestamp : Option PlainDate → Option Int
  | none => none
  | some d => some (86400000 * toEpochDays d)

/-- Models `Temporal.Instant.compare` on epoch-millisecond instants. -/
def instantCompare (a b : Int) : Int :=
  if a < b then -1 else if b < a then 1 else 0

/-- The due-date comparator of `sortTodos`: the sign of
`toDueTimestamp(a) - toDueTimestamp(b)` under IEEE arithmetic, with the
`NaN` produced by `∞ - ∞` treated as 0 as ECMAScript `SortCompare`
prescribes. -/
def dueCompare (a b : Todo) : Int :=
  match toDueTimestamp a.dueDate, toDueTimestamp b.dueDate with
  | none, none => 0
  | none, some _ => 1
  | some _, none => -1
  | some x, some y => x - y

/-- The `sort` query parameter. -/
inductive SortMode where
  | created
  | due
deriving DecidableEq

/-- Models `sortTodos` of `src/server.tsx`. -/
def sortTodos (items : List Todo) (sort : SortMode) : List Todo :=
  jsSort
    (fun a b =>
      if sort = SortMode.due then dueCompare a b
      else instantCompare a.createdAt b.createdAt)
    items

/-- The comparator of `sortCompletedTodosByRecent`. -/
def recentCompare (a b : Todo) : Int :=
  match a.completedAt, b.completedAt with
  | none, none => instantCompare a.createdAt b.createdAt
  | none, some _ => 1
  | some _, none => -1
  | some x, some y => instantCompare y x

/-- Models `sortCompletedTodosByRecent` of `src/server.tsx`. -/
def sortCompletedTodosByRecent (items : List Todo) : List Todo :=
  jsSort recentCompare items

/-- Models `getTodayTodosForMenu`: today-flagged tasks, incomplete first,
each group keeping input order. -/
def getTodayTodosForMenu (items : List Todo) : List Todo :=
  let todayTodos := items.filter (fun t => truthy t.isToday)
  todayTodos.filter (fun t => !t.completed) ++ todayTodos.filter (fun t => t.completed)

/-- Weekday labels of `recurrenceWeekdayLabelMap` (Sunday = 0). -/
def recurrenceWeekdayLabel (w : Int) : Option String :=
  if w = 0 then some "日"
  else if w = 1 then some "月"
  else if w = 2 then some "火"
  else if w = 3 then some "水"
  else if w = 4 then some "木"
  else if w = 5 then some "金"
  else if w = 6 then some "土"
  else none

/-- Models `formatRecurrenceLabel` of `src/server.tsx`. -/
def formatRecurrenceLabel : Option RecurrenceSetting → Option String
  | none => none
  | some (RecurrenceSetting.monthly dayOfMonth) => some (toString dayOfMonth ++ "日")
  | some (RecurrenceSetting.weekly weekdays) =>
      let labels := (jsSort subCompare (dedupFirst weekdays)).filterMap recurrenceWeekdayLabel
      if labels = [] then none else some (String.intercalate "," labels)

/-- Left-pad a non-negative number's decimal form to two digits. -/
def padTwo (n : Int) : String :=
  if n < 10 then "0" ++ toString n else toString n

/-- Left-pad a year to four digits (the ISO form for the years in scope). -/
def padYear (n : Int) : String :=
  if n < 10 then "000" ++ toString n
  else if n < 100 then "00" ++ toString n
  else if n < 1000 then "0" ++ toString n
  else toString n

/-- Models `plainDate.toString()`: the ISO `YYYY-MM-DD` form. -/
def formatIsoDate (d : PlainDate) : String :=
  padYear d.year ++ "-" ++ padTwo d.month ++ "-" ++ padTwo d.day

/-- One projected item of the today payload; models `TodayTaskItem`. -/
structure TodayTaskItem where
  id : String
  title : String
  completed : Bool
  dueDateIso : Option String
  hasRecurrence : Bool
  recurrenceLabel : Option String
deriving DecidableEq

/-- Models `TodayTasksPayload`. -/
structure TodayTasksPayload where
  count : Nat
  items : List TodayTaskItem
  updatedAt : String
deriving DecidableEq

/-- The projection of a task to a today-payload item used by
`buildTodayTasksPayload`. -/
def toTodayTaskItem (t : Todo) : TodayTaskItem :=
  { id := t.id, title := t.title, completed := t.completed,
    dueDateIso := t.dueDate.map formatIsoDate,
    hasRecurrence := t.recurrence.isSome,
    recurrenceLabel := formatRecurrenceLabel t.recurrence }

/-- Models `buildTodayTasksPayload` of `src/server.tsx`; `nowIso` models the
wall-clock `new Date().toISOString()` (the `today` default parameter of the
source is unused by the body and omitted). -/
def buildTodayTasksPayload (items : List Todo) (nowIso : String) : TodayTasksPayload :=
  let todayTodos := getTodayTodosForMenu items
  { count := todayTodos.length,
    items := todayTodos.map toTodayTaskItem,
    updatedAt := nowIso }

/-- Models `formatDueDateLabel` of `src/date-format.ts`. -/
def formatDueDateLabel (value today : PlainDate) : String :=
  if dateCompare value (addDaysInt today (-1)) = 0 then "昨日"
  else if dateCompare value today = 0 then "今日"
  else if dateCompare value (addDaysInt today 1) = 0 then "明日"
  else if value.year = today.year then toString value.month ++ "/" ++ toString value.day
  else toString value.year ++ "/" ++ toString value.month ++ "/" ++ toString value.day

/-- Numeric value of a decimal digit character, if it is one. -/
def digitVal (c : Char) : Option Int :=
  if c.isDigit then some ((c.toNat : Int) - ('0'.toNat : Int)) else none

/-- Models `Temporal.PlainDate.from(string)` on the canonical `YYYY-MM-DD`
strings this system produces (`plainDate.toString()`): parses the pattern
and rejects invalid calendar dates, as `from` throws on them. -/
def parseIsoDate (s : String) : Option PlainDate :=
  match s.toList with
  | [y1, y2, y3, y4, '-', m1, m2, '-', d1, d2] =>
      match digitVal y1, digitVal y2, digitVal y3, digitVal y4,
            digitVal m1, digitVal m2, digitVal d1, digitVal d2 with
      | some a, some b, some c, some d, some e, some f, some g, some h =>
          let date : PlainDate :=
            ⟨1000 * a + 100 * b + 10 * c + d, 10 * e + f, 10 * g + h⟩
          if date.Valid then some date else none
      | _, _, _, _, _, _, _, _ => none
  | _ => none

/-- Models `formatDueDateIsoForMenu` of `src/date-format.ts` (an absent or
empty string is falsy; an unparsable string is caught to `undefined`). -/
def formatDueDateIsoForMenu (value : Option String) (today : PlainDate) : Option String :=
  match value with
  | none => none
  | some s =>
      if s = "" then none
      else
        match parseIsoDate s with
        | none => none
        | some dueDate => some ("📅 " ++ formatDueDateLabel dueDate today)

/-- Models `toStrikethroughLabel`: each character followed by the combining
long stroke overlay U+0336. -/
def toStrikethroughLabel (label : String) : String :=
  String.mk (label.toList.foldr (fun c acc => c :: '̶' :: acc) [])

/-- Tray menu entry; models the `TrayMenuModelEntry` tagged union of the
tray-menu module. -/
inductive TrayMenuModelEntry where
  | summary (label : String)
  | task (label : String) (completed : Bool) (sublabel : Option String) (todoId : String)
  | overflow (label : String)
  | empty (label : String)
  | error (label : String)
  | separator
  | openWindow (label : String)
  | refresh (label : String)
  | quit (label : String)
deriving DecidableEq

/-- Options of `buildTrayMenuModel`. -/
structure TrayMenuOptions where
  error : Option Bool := none
  today : Option PlainDate := none

/-- Models `buildTaskSublabel` inside `buildTrayMenuModel`: the calendar
due-date label and the recurrence label joined by two spaces, absent if
both parts are absent. -/
def buildTaskSublabel (today : PlainDate) (todo : TodayTaskItem) : Option String :=
  let dueParts : List String :=
    match formatDueDateIsoForMenu todo.dueDateIso today with
    | none => []
    | some dueLabel => if dueLabel = "" then [] else [dueLabel]
  let parts : List String :=
    dueParts ++
      (match todo.recurrenceLabel with
       | some label => if label = "" then (if todo.hasRecurrence then ["🔄 繰り返し"] else []) else ["🔄 " ++ label]
       | none => if todo.hasRecurrence then ["🔄 繰り返し"] else [])
  let joined := String.intercalate "  " parts
  if joined = "" then none else some joined

/-- Models `buildTrayMenuModel` of the tray-menu module; `nowDate` models
the wall-clock default of the `today` option. -/
def buildTrayMenuModel (payload : Option TodayTasksPayload)
    (options : TrayMenuOptions) (nowDate : PlainDate) : List TrayMenuModelEntry :=
  if truthy options.error then
    [TrayMenuModelEntry.error "取得失敗",
     TrayMenuModelEntry.separator,
     TrayMenuModelEntry.openWindow "ウィンドウを開く",
     TrayMenuModelEntry.refresh "再読み込み",
     TrayMenuModelEntry.separator,
     TrayMenuModelEntry.quit "終了"]
  else
    match payload with
    | none =>
        [TrayMenuModelEntry.summary "今日のタスク: 0件",
         TrayMenuModelEntry.empty "タスクはありません",
         TrayMenuModelEntry.separator,
         TrayMenuModelEntry.openWindow "ウィンドウを開く",
         TrayMenuModelEntry.refresh "再読み込み",
         TrayMenuModelEntry.separator,
         TrayMenuModelEntry.quit "終了"]
    | some payload =>
        let itemEntries :=
          if payload.items.length = 0 then
            [TrayMenuModelEntry.empty "タスクはありません"]
          else
            payload.items.map (fun todo =>
              TrayMenuModelEntry.task
                (if todo.completed then toStrikethroughLabel todo.title else todo.title)
                todo.completed
                (buildTaskSublabel (options.today.getD nowDate) todo)
                todo.id)
        [TrayMenuModelEntry.summary ("今日のタスク: " ++ toString payload.count ++ "件")] ++
          itemEntries ++
          [TrayMenuModelEntry.separator,
           TrayMenuModelEntry.openWindow "ウィンドウを開く",
           TrayMenuModelEntry.refresh "再読み込み",
           TrayMenuModelEntry.separator,
           TrayMenuModelEntry.quit "終了"]

/-- Ascending-due ordering with absent due dates greatest: the total
preorder whose sign function the `sortTodos` due comparator is. -/
def DueLE (a b : Todo) : Prop :=
  match toDueTimestamp a.dueDate, toDueTimestamp b.dueDate with
  | none, none => True
  | none, some _ => False
  | some _, none => True
  | some x, some y => x ≤ y

/-- Recently-completed-first ordering: descending completion instant,
tasks without one last and ordered by ascending creation instant — the
total preorder whose sign function `recentCompare` is. -/
def RecentLE (a b : Todo) : Prop :=
  match a.completedAt, b.completedAt with
  | none, none => a.createdAt ≤ b.createdAt
  | none, some _ => False
  | some _, none => True
  | some x, some y => y ≤ x

/-! ### Calendar arithmetic lemmas -/

theorem daysInMonth_pos (y m : Int) : 1 ≤ daysInMonth y m := by
  unfold daysInMonth
  split_ifs <;> omega

theorem daysInMonth_le (y m : Int) : daysInMonth y m ≤ 31 := by
  unfold daysInMonth
  split_ifs <;> omega

theorem nextDay_valid {d : PlainDate} (h : d.Valid) : (nextDay d).Valid := by
  obtain ⟨h1, h2, h3, h4⟩ := h
  have p1 := daysInMonth_pos d.year (d.month + 1)
  have p2 := daysInMonth_pos (d.year + 1) 1
  unfold nextDay
  split_ifs with hd hm <;> unfold PlainDate.Valid <;> dsimp only <;> omega

theorem toEpochDays_sameMonth (y m dy : Int) :
    toEpochDays ⟨y, m, dy + 1⟩ = toEpochDays ⟨y, m, dy⟩ + 1 := by
  simp only [toEpochDays]
  split_ifs <;> omega

theorem toEpochDays_monthRoll (y m : Int) (h1 : 1 ≤ m) (hm : m < 12) :
    toEpochDays ⟨y, m + 1, 1⟩ = toEpochDays ⟨y, m, daysInMonth y m⟩ + 1 := by
  interval_cases m <;>
    · simp only [toEpochDays, daysInMonth, isLeapYear]
      norm_num
      try split_ifs
      all_goals omega

theorem toEpochDays_yearRoll (y : Int) :
    toEpochDays ⟨y + 1, 1, 1⟩ = toEpochDays ⟨y, 12, 31⟩ + 1 := by
  simp only [toEpochDays]
  norm_num
  omega

theorem toEpochDays_nextDay {d : PlainDate} (h : d.Valid) :
    toEpochDays (nextDay d) = toEpochDays d + 1 := by
  obtain ⟨h1, h2, h3, h4⟩ := h
  rcases d with ⟨y, m, dy⟩
  dsimp only at h1 h2 h3 h4
  unfold nextDay
  split_ifs with hd hm
  · exact toEpochDays_sameMonth y m dy
  · dsimp only at hd ⊢
    have : dy = daysInMonth y m := by omega
    subst this
    exact toEpochDays_monthRoll y m h1 hm
  · dsimp only at hd hm ⊢
    have hm12 : m = 12 := by omega
    subst hm12
    have hdy : dy = 31 := by
      simp only [daysInMonth] at h4 hd
      norm_num at h4 hd
      omega
    subst hdy
    exact toEpochDays_yearRoll y

theorem addDays_valid {d : PlainDate} (h : d.Valid) (n : Nat) : (addDays d n).Valid := by
  induction n with
  | zero => exact h
  | succ n ih => exact nextDay_valid ih

theorem toEpochDays_addDays {d : PlainDate} (h : d.Valid) (n : Nat) :
    toEpochDays (addDays d n) = toEpochDays d + n := by
  induction n with
  | zero => simp [addDays]
  | succ n ih =>
      have := toEpochDays_nextDay (addDays_valid h n)
      simp only [addDays]
      omega

theorem addDaysInt_nonneg (d : PlainDate) (k : Int) (hk : 0 ≤ k) :
    addDaysInt d k = addDays d k.toNat := by
  simp [addDaysInt, hk]

theorem dateCompare_eq_zero_iff (a b : PlainDate) : dateCompare a b = 0 ↔ a = b := by
  rcases a with ⟨ya, ma, da⟩
  rcases b with ⟨yb, mb, db⟩
  unfold dateCompare
  dsimp only
  split_ifs <;> simp_all [PlainDate.mk.injEq] <;> omega

theorem dateCompare_antisymm (a b : PlainDate) : dateCompare a b = -dateCompare b a := by
  unfold dateCompare
  split_ifs <;> omega

theorem dateCompare_flip (a b : PlainDate) : dateCompare a b = 1 ↔ dateCompare b a = -1 := by
  rw [dateCompare_antisymm a b]
  omega

theorem dateCompare_trichotomy (a b : PlainDate) :
    dateCompare a b = -1 ∨ dateCompare a b = 0 ∨ dateCompare a b = 1 := by
  unfold dateCompare
  split_ifs <;> simp

theorem toEpochDays_dayMono (y m d1 d2 : Int) (h : d1 < d2) :
    toEpochDays ⟨y, m, d1⟩ < toEpochDays ⟨y, m, d2⟩ := by
  simp only [toEpochDays]
  split_ifs <;> omega

theorem toEpochDays_dayMono_le (y m d1 d2 : Int) (h : d1 ≤ d2) :
    toEpochDays ⟨y, m, d1⟩ ≤ toEpochDays ⟨y, m, d2⟩ := by
  simp only [toEpochDays]
  split_ifs <;> omega

theorem toEpochDays_monthUpper (y m d : Int) (h1 : 1 ≤ m) (h2 : m ≤ 12) (h3 : d ≤ 31) :
    toEpochDays ⟨y, m, d⟩ ≤ toEpochDays ⟨y, 12, 31⟩ := by
  interval_cases m <;>
    · simp only [toEpochDays]
      norm_num
      omega

theorem toEpochDays_monthLower (y m d : Int) (h1 : 1 ≤ m) (h2 : m ≤ 12) (h3 : 1 ≤ d) :
    toEpochDays ⟨y, 1, 1⟩ ≤ toEpochDays ⟨y, m, d⟩ := by
  interval_cases m <;>
    · simp only [toEpochDays]
      norm_num
      omega

theorem toEpochDays_yearStartMono (y1 y2 : Int) (h : y1 ≤ y2) :
    toEpochDays ⟨y1, 1, 1⟩ ≤ toEpochDays ⟨y2, 1, 1⟩ := by
  simp only [toEpochDays]
  norm_num
  omega

theorem toEpochDays_monthStartStep (y m : Int) (h1 : 1 ≤ m) (hm : m < 12) :
    toEpochDays ⟨y, m, 1⟩ ≤ toEpochDays ⟨y, m + 1, 1⟩ := by
  have h := toEpochDays_monthRoll y m h1 hm
  have h2 := toEpochDays_dayMono_le y m 1 (daysInMonth y m) (daysInMonth_pos y m)
  omega

theorem toEpochDays_monthStartMonoAux (y : Int) (k : Nat) :
    ∀ m : Int, 1 ≤ m → m + k ≤ 12 →
      toEpochDays ⟨y, m, 1⟩ ≤ toEpochDays ⟨y, m + k, 1⟩ := by
  induction k with
  | zero => intro m h1 h2; simp
  | succ k ih =>
      intro m h1 h2
      have e : m + (((k + 1 : Nat)) : Int) = m + (k : Int) + 1 := by push_cast; ring
      rw [e]
      refine le_trans (ih m h1 (by push_cast at h2 ⊢; omega)) ?_
      exact toEpochDays_monthStartStep y (m + k) (by omega) (by push_cast at h2; omega)

theorem toEpochDays_monthStartMono (y m1 m2 d : Int) (hm1 : 1 ≤ m1) (hle : m1 ≤ m2)
    (hm2 : m2 ≤ 12) (hd : 1 ≤ d) :
    toEpochDays ⟨y, m1, 1⟩ ≤ toEpochDays ⟨y, m2, d⟩ := by
  have hcast : m1 + (((m2 - m1).toNat : Int)) = m2 := by omega
  have h1 := toEpochDays_monthStartMonoAux y (m2 - m1).toNat m1 hm1 (by omega)
  rw [hcast] at h1
  have h2 := toEpochDays_dayMono_le y m2 1 d hd
  omega

theorem toEpochDays_strictMono {a b : PlainDate} (ha : a.Valid) (hb : b.Valid)
    (hlt : dateCompare a b = -1) : toEpochDays a < toEpochDays b := by
  obtain ⟨ha1, ha2, ha3, ha4⟩ := ha
  obtain ⟨hb1, hb2, hb3, hb4⟩ := hb
  rcases a with ⟨ya, ma, da⟩
  rcases b with ⟨yb, mb, db⟩
  dsimp only at ha1 ha2 ha3 ha4 hb1 hb2 hb3 hb4
  unfold dateCompare at hlt
  dsimp only at hlt
  split_ifs at hlt with hy1 hy2 hm1 hm2 hd1 hd2 <;> try omega
  · calc toEpochDays ⟨ya, ma, da⟩
        ≤ toEpochDays ⟨ya, 12, 31⟩ :=
          toEpochDays_monthUpper ya ma da ha1 ha2 (le_trans ha4 (daysInMonth_le ya ma))
      _ < toEpochDays ⟨ya + 1, 1, 1⟩ := by rw [toEpochDays_yearRoll]; omega
      _ ≤ toEpochDays ⟨yb, 1, 1⟩ := toEpochDays_yearStartMono (ya + 1) yb (by omega)
      _ ≤ toEpochDays ⟨yb, mb, db⟩ := toEpochDays_monthLower yb mb db hb1 hb2 hb3
  · have hyy : ya = yb := by omega
    subst hyy
    calc toEpochDays ⟨ya, ma, da⟩
        ≤ toEpochDays ⟨ya, ma, daysInMonth ya ma⟩ := toEpochDays_dayMono_le ya ma da _ ha4
      _ < toEpochDays ⟨ya, ma + 1, 1⟩ := by
          rw [toEpochDays_monthRoll ya ma ha1 (by omega)]; omega
      _ ≤ toEpochDays ⟨ya, mb, db⟩ :=
          toEpochDays_monthStartMono ya (ma + 1) mb db (by omega) (by omega) hb2 hb3
  · have hyy : ya = yb := by omega
    have hmm : ma = mb := by omega
    subst hyy; subst hmm
    exact toEpochDays_dayMono ya ma da db hd1

theorem dateCompare_of_toEpochDays_lt {a b : PlainDate} (ha : a.Valid) (hb : b.Valid)
    (h : toEpochDays a < toEpochDays b) : dateCompare a b = -1 := by
  rcases dateCompare_trichotomy a b with hc | hc | hc
  · exact hc
  · rw [dateCompare_eq_zero_iff] at hc
    subst hc
    omega
  · rw [dateCompare_flip] at hc
    have := toEpochDays_strictMono hb ha hc
    omega

/-! ### Stable sort lemmas -/

theorem jsInsert_perm (cmp : α → α → Int) (x : α) (l : List α) :
    (jsInsert cmp x l).Perm (x :: l) := by
  induction l with
  | nil => simp [jsInsert]
  | cons y ys ih =>
      simp only [jsInsert]
      split_ifs with h
      · exact List.Perm.refl _
      · exact ((ih.cons y).trans (List.Perm.swap x y ys))

theorem jsSort_perm (cmp : α → α → Int) (l : List α) : (jsSort cmp l).Perm l := by
  induction l with
  | nil => simp [jsSort]
  | cons x xs ih => exact (jsInsert_perm cmp x (jsSort cmp xs)).trans (ih.cons x)

theorem mem_jsSort {cmp : α → α → Int} {l : List α} {a : α} :
    a ∈ jsSort cmp l ↔ a ∈ l :=
  (jsSort_perm cmp l).mem_iff

theorem jsInsert_pairwise {cmp : α → α → Int} {R : α → α → Prop}
    (hR : ∀ x y, cmp x y ≤ 0 ↔ R x y) (htot : ∀ x y, ¬R x y → R y x)
    (htrans : ∀ a b c, R a b → R b c → R a c)
    (x : α) {l : List α} (hl : l.Pairwise R) : (jsInsert cmp x l).Pairwise R := by
  induction l with
  | nil => simp [jsInsert]
  | cons y ys ih =>
      rcases List.pairwise_cons.mp hl with ⟨hy, hys⟩
      simp only [jsInsert]
      split_ifs with h
      · have hxy : R x y := (hR x y).mp h
        refine List.pairwise_cons.mpr ⟨?_, hl⟩
        intro z hz
        rcases List.mem_cons.mp hz with hz | hz
        · exact hz ▸ hxy
        · exact htrans x y z hxy (hy z hz)
      · have hyx : R y x := htot x y (fun hxy => h ((hR x y).mpr hxy))
        refine List.pairwise_cons.mpr ⟨?_, ih hys⟩
        intro z hz
        have hz' := (jsInsert_perm cmp x ys).mem_iff.mp hz
        rcases List.mem_cons.mp hz' with hz' | hz'
        · exact hz' ▸ hyx
        · exact hy z hz'

theorem jsSort_pairwise {cmp : α → α → Int} {R : α → α → Prop}
    (hR : ∀ x y, cmp x y ≤ 0 ↔ R x y) (htot : ∀ x y, ¬R x y → R y x)
    (htrans : ∀ a b c, R a b → R b c → R a c) (l : List α) :
    (jsSort cmp l).Pairwise R := by
  induction l with
  | nil => simp [jsSort]
  | cons x xs ih => exact jsInsert_pairwise hR htot htrans x ih

theorem filter_jsInsert_true {cmp : α → α → Int} (f : α → Bool) (x : α)
    (hx : f x = true) (hle : ∀ y, f y = true → cmp x y ≤ 0) (l : List α) :
    (jsInsert cmp x l).filter f = x :: l.filter f := by
  induction l with
  | nil => simp [jsInsert, hx]
  | cons y ys ih =>
      simp only [jsInsert]
      split_ifs with h
      · simp [List.filter_cons, hx]
      · have hfy : f y = false := by
          cases hfy : f y
          · rfl
          · exact absurd (hle y hfy) h
        simp [List.filter_cons, hfy, ih]

theorem filter_jsInsert_false {cmp : α → α → Int} (f : α → Bool) (x : α)
    (hx : f x = false) (l : List α) :
    (jsInsert cmp x l).filter f = l.filter f := by
  induction l with
  | nil => simp [jsInsert, hx]
  | cons y ys ih =>
      simp only [jsInsert]
      split_ifs with h
      · simp [List.filter_cons, hx]
      · simp [List.filter_cons, ih]

theorem jsSort_filter {cmp : α → α → Int} (f : α → Bool)
    (hconsist : ∀ x y, f x = true → f y = true → cmp x y ≤ 0) (l : List α) :
    (jsSort cmp l).filter f = l.filter f := by
  induction l with
  | nil => simp [jsSort]
  | cons x xs ih =>
      simp only [jsSort]
      cases hfx : f x
      · rw [filter_jsInsert_false f x hfx, ih]
        simp [List.filter_cons, hfx]
      · rw [filter_jsInsert_true f x hfx (fun y hy => hconsist x y hfx hy), ih]
        simp [List.filter_cons, hfx]

theorem jsSort_subCompare_head_min {l : List Int} {k : Int}
    (h : (jsSort subCompare l).head? = some k) : k ∈ l ∧ ∀ x ∈ l, k ≤ x := by
  have hR : ∀ x y : Int, subCompare x y ≤ 0 ↔ x ≤ y := by
    intro x y
    unfold subCompare
    omega
  have hpw : (jsSort subCompare l).Pairwise (· ≤ ·) :=
    jsSort_pairwise hR (fun x y hxy => le_of_not_le hxy)
      (fun a b c h1 h2 => le_trans h1 h2) l
  rcases hs : jsSort subCompare l with _ | ⟨k', t⟩
  · rw [hs] at h; simp at h
  · rw [hs] at h
    simp only [List.head?, Option.some.injEq] at h
    rw [h] at hs
    rw [hs] at hpw
    rcases List.pairwise_cons.mp hpw with ⟨hk_le, _⟩
    constructor
    · have : k ∈ jsSort subCompare l := by rw [hs]; exact List.mem_cons_self k t
      exact mem_jsSort.mp this
    · intro x hx
      have hx' : x ∈ jsSort subCompare l := mem_jsSort.mpr hx
      rw [hs] at hx'
      rcases List.mem_cons.mp hx' with hx' | hx'
      · omega
      · exact hk_le x hx'

theorem jsSort_head_of_ne_nil {cmp : α → α → Int} {l : List α} (h : l ≠ []) :
    ∃ k, (jsSort cmp l).head? = some k := by
  have hlen : (jsSort cmp l).length = l.length := (jsSort_perm cmp l).length_eq
  rcases hs : jsSort cmp l with _ | ⟨k, t⟩
  · rw [hs] at hlen
    simp at hlen
    exact absurd (List.length_eq_zero.mp hlen.symm) h
  · exact ⟨k, rfl⟩

/-! ### Operation helper lemmas -/

theorem updateFirst_length (p : α → Bool) (f : α → α) (l : List α) :
    (updateFirst p f l).length = l.length := by
  induction l with
  | nil => rfl
  | cons x xs ih =>
      simp only [updateFirst]
      split_ifs <;> simp [ih]

theorem find?_updateFirst {p : α → Bool} {f : α → α} {l : List α} {t : α}
    (hfind : List.find? p l = some t) (hp : p (f t) = true) :
    List.find? p (updateFirst p f l) = some (f t) := by
  induction l with
  | nil => simp at hfind
  | cons x xs ih =>
      by_cases hpx : p x = true
      · rw [List.find?_cons_of_pos _ hpx] at hfind
        injection hfind with hx
        subst hx
        simp only [updateFirst, if_pos hpx]
        exact List.find?_cons_of_pos _ hp
      · have hpx' : p x = false := by simp_all
        rw [List.find?_cons_of_neg _ (by simp [hpx'])] at hfind
        simp only [updateFirst, hpx', Bool.false_eq_true, if_false]
        rw [List.find?_cons_of_neg _ (by simp [hpx'])]
        exact ih hfind

theorem find?_append_left {p : α → Bool} {l l' : List α} {t : α}
    (h : List.find? p l = some t) : List.find? p (l ++ l') = some t := by
  induction l with
  | nil => simp at h
  | cons x xs ih =>
      by_cases hpx : p x = true
      · rw [List.find?_cons_of_pos _ hpx] at h
        rw [List.cons_append, List.find?_cons_of_pos _ hpx]
        exact h
      · rw [List.find?_cons_of_neg _ (by simp_all)] at h
        rw [List.cons_append, List.find?_cons_of_neg _ (by simp_all)]
        exact ih h

theorem filter_filter_todo (p q : Todo → Bool) (l : List Todo) :
    (l.filter p).filter q = l.filter (fun a => p a && q a) := by
  induction l with
  | nil => rfl
  | cons x xs ih =>
      by_cases hp : p x = true <;> by_cases hq : q x = true <;>
        simp [List.filter_cons, hp, hq, ih]

/-! ### Claim theorems -/

/-- C6: `sortTodos _ due` returns a permutation of the input, ordered
ascending by due date with every task lacking a due date treated as
positive infinity (so placed after every dated task), and relative input
order preserved among equal due timestamps and among the undated tasks. -/
theorem sortTodos_due_spec (items : List Todo) :
    (sortTodos items SortMode.due).Perm items ∧
    (sortTodos items SortMode.due).Pairwise DueLE ∧
    ∀ k : Option Int,
      (sortTodos items SortMode.due).filter (fun t => toDueTimestamp t.dueDate == k) =
        items.filter (fun t => toDueTimestamp t.dueDate == k) := by
  have hcmp : (fun a b : Todo =>
      if SortMode.due = SortMode.due then dueCompare a b
      else instantCompare a.createdAt b.createdAt) = dueCompare := by
    funext a b
    simp
  have hsort : sortTodos items SortMode.due = jsSort dueCompare items := by
    unfold sortTodos
    rw [hcmp]
  have hR : ∀ x y : Todo, dueCompare x y ≤ 0 ↔ DueLE x y := by
    intro x y
    unfold dueCompare DueLE
    rcases toDueTimestamp x.dueDate with _ | vx <;> rcases toDueTimestamp y.dueDate with _ | vy <;>
      simp <;> omega
  have htot : ∀ x y : Todo, ¬DueLE x y → DueLE y x := by
    intro x y
    unfold DueLE
    rcases toDueTimestamp x.dueDate with _ | vx <;> rcases toDueTimestamp y.dueDate with _ | vy <;>
      simp <;> omega
  have htrans : ∀ a b c : Todo, DueLE a b → DueLE b c → DueLE a c := by
    intro a b c
    unfold DueLE
    rcases toDueTimestamp a.dueDate with _ | va <;> rcases toDueTimestamp b.dueDate with _ | vb <;>
      rcases toDueTimestamp c.dueDate with _ | vc <;> simp <;> omega
  refine ⟨?_, ?_, ?_⟩
  · rw [hsort]
    exact jsSort_perm dueCompare items
  · rw [hsort]
    exact jsSort_pairwise hR htot htrans items
  · intro k
    rw [hsort]
    refine jsSort_filter _ ?_ items
    intro x y hx hy
    have hx' : toDueTimestamp x.dueDate = k := by simpa using hx
    have hy' : toDueTimestamp y.dueDate = k := by simpa using hy
    unfold dueCompare
    rw [hx', hy']
    rcases k with _ | v <;> simp

/-- C5 counterexample: two tasks without a completion instant whose
creation instants are in descending order are reordered by
`sortCompletedTodosByRecent`, so ties in the undated group are not kept in
original input order. -/
theorem sortCompletedTodosByRecent_undated_cex :
    sortCompletedTodosByRecent
        [{ id := "u1", title := "a", completed := true, createdAt := 2000 },
         { id := "u2", title := "b", completed := true, createdAt := 1000 }] =
      [{ id := "u2", title := "b", completed := true, createdAt := 1000 },
       { id := "u1", title := "a", completed := true, createdAt := 2000 }] ∧
    ([({ id := "u2", title := "b", completed := true, createdAt := 1000 } : Todo),
      { id := "u1", title := "a", completed := true, createdAt := 2000 }] ≠
      [{ id := "u1", title := "a", completed := true, createdAt := 2000 },
       { id := "u2", title := "b", completed := true, createdAt := 1000 }]) := by
  constructor
  · rfl
  · decide

/-- C5 (amended): `sortCompletedTodosByRecent` returns a permutation
ordered descending by completion instant with undated tasks last; tasks
sharing a completion instant keep input order; the undated group is
ordered ascending by creation instant (input order kept only among equal
creation instants), and on [A(completedAt=1000), B(completedAt=3000),
C(none)] it returns [B, A, C]. -/
theorem sortCompletedTodosByRecent_spec :
    (∀ items : List Todo,
      (sortCompletedTodosByRecent items).Perm items ∧
      (sortCompletedTodosByRecent items).Pairwise RecentLE ∧
      (∀ c : Int,
        (sortCompletedTodosByRecent items).filter (fun t => t.completedAt == some c) =
          items.filter (fun t => t.completedAt == some c)) ∧
      (∀ c : Int,
        (sortCompletedTodosByRecent items).filter
            (fun t => t.completedAt == (none : Option Int) && t.createdAt == c) =
          items.filter (fun t => t.completedAt == (none : Option Int) && t.createdAt == c))) ∧
    sortCompletedTodosByRecent
        [{ id := "A", title := "A", completed := true, createdAt := 1, completedAt := some 1000 },
         { id := "B", title := "B", completed := true, createdAt := 2, completedAt := some 3000 },
         { id := "C", title := "C", completed := true, createdAt := 3 }] =
      [{ id := "B", title := "B", completed := true, createdAt := 2, completedAt := some 3000 },
       { id := "A", title := "A", completed := true, createdAt := 1, completedAt := some 1000 },
       { id := "C", title := "C", completed := true, createdAt := 3 }] := by
  have hR : ∀ x y : Todo, recentCompare x y ≤ 0 ↔ RecentLE x y := by
    intro x y
    unfold recentCompare RecentLE instantCompare
    rcases x.completedAt with _ | vx <;> rcases y.completedAt with _ | vy <;>
      (try split_ifs) <;> simp <;> omega
  have htot : ∀ x y : Todo, ¬RecentLE x y → RecentLE y x := by
    intro x y
    unfold RecentLE
    rcases x.completedAt with _ | vx <;> rcases y.completedAt with _ | vy <;>
      simp <;> omega
  have htrans : ∀ a b c : Todo, RecentLE a b → RecentLE b c → RecentLE a c := by
    intro a b c
    unfold RecentLE
    rcases a.completedAt with _ | va <;> rcases b.completedAt with _ | vb <;>
      rcases c.completedAt with _ | vc <;> simp <;> omega
  refine ⟨fun items => ⟨?_, ?_, ?_, ?_⟩, ?_⟩
  · exact jsSort_perm recentCompare items
  · exact jsSort_pairwise hR htot htrans items
  · intro c
    refine jsSort_filter _ ?_ items
    intro x y hx hy
    have hx' : x.completedAt = some c := by simpa using hx
    have hy' : y.completedAt = some c := by simpa using hy
    unfold recentCompare instantCompare
    rw [hx', hy']
    simp
  · intro c
    refine jsSort_filter _ ?_ items
    intro x y hx hy
    simp only [Bool.and_eq_true, beq_iff_eq] at hx hy
    unfold recentCompare instantCompare
    rw [hx.1, hy.1, hx.2, hy.2]
    simp
  · rfl

/-- C7: `buildTodayTasksPayload` keeps exactly the is-today tasks, orders
all incomplete ones before all completed ones preserving input order
within each group, returns `count` equal to the item count, and on
is-today tasks [X(completed), Y(incomplete)] yields items [Y, X]. -/
theorem buildTodayTasksPayload_spec :
    (∀ (items : List Todo) (nowIso : String),
      (buildTodayTasksPayload items nowIso).count =
          (buildTodayTasksPayload items nowIso).items.length ∧
      (buildTodayTasksPayload items nowIso).items =
        (items.filter (fun t => truthy t.isToday && !t.completed) ++
          items.filter (fun t => truthy t.isToday && t.completed)).map toTodayTaskItem) ∧
    (buildTodayTasksPayload
        [{ id := "x", title := "X", completed := true, createdAt := 0, isToday := some true },
         { id := "y", title := "Y", completed := false, createdAt := 1, isToday := some true }]
        "2026-01-01T00:00:00.000Z").items =
      [toTodayTaskItem
          { id := "y", title := "Y", completed := false, createdAt := 1, isToday := some true },
       toTodayTaskItem
          { id := "x", title := "X", completed := true, createdAt := 0, isToday := some true }] := by
  refine ⟨fun items nowIso => ⟨?_, ?_⟩, ?_⟩
  · simp [buildTodayTasksPayload]
  · simp only [buildTodayTasksPayload, getTodayTodosForMenu]
    rw [filter_filter_todo, filter_filter_todo, List.map_append]
  · rfl

/-- C8: with `error` set, the tray menu builder returns exactly the fixed
six-entry sequence [error, separator, open, refresh, separator, quit],
whatever the payload is. -/
theorem buildTrayMenuModel_error_spec (payload : Option TodayTasksPayload)
    (options : TrayMenuOptions) (nowDate : PlainDate)
    (herr : truthy options.error = true) :
    buildTrayMenuModel payload options nowDate =
      [TrayMenuModelEntry.error "取得失敗",
       TrayMenuModelEntry.separator,
       TrayMenuModelEntry.openWindow "ウィンドウを開く",
       TrayMenuModelEntry.refresh "再読み込み",
       TrayMenuModelEntry.separator,
       TrayMenuModelEntry.quit "終了"] := by
  unfold buildTrayMenuModel
  rw [if_pos herr]

/-- C8 witness: a present payload with a task item is ignored entirely
when the error flag is set. -/
theorem buildTrayMenuModel_error_spec_witness :
    buildTrayMenuModel
        (some { count := 1,
                items := [{ id := "1", title := "t", completed := false,
                            dueDateIso := none, hasRecurrence := false,
                            recurrenceLabel := none }],
                updatedAt := "now" })
        { error := some true, today := none } ⟨2026, 1, 1⟩ =
      [TrayMenuModelEntry.error "取得失敗",
       TrayMenuModelEntry.separator,
       TrayMenuModelEntry.openWindow "ウィンドウを開く",
       TrayMenuModelEntry.refresh "再読み込み",
       TrayMenuModelEntry.separator,
       TrayMenuModelEntry.quit "終了"] :=
  buildTrayMenuModel_error_spec _ _ _ (by decide)

/-- C9: every mutation route invoked with an id no task carries completes
without error, leaves the collection unchanged, and fires no change
notification. -/
theorem unknown_id_mutations_noop (todos : List Todo) (id : String)
    (now : Int) (tz : Int → PlainDate) (nextId : String) (nextCreatedAt : Int)
    (dueDate : Option PlainDate) (form : RecurrenceForm)
    (h : ∀ t ∈ todos, ¬t.id = id) :
    toggleTodoOp todos id now tz nextId nextCreatedAt = (todos, false) ∧
    toggleTodayOp todos id = (todos, false) ∧
    setDueDateOp todos id dueDate = (todos, false) ∧
    setRecurrenceOp todos id form = (todos, false) ∧
    deleteTodoOp todos id = (todos, false) := by
  have hfind : List.find? (fun t => t.id == id) todos = none :=
    List.find?_eq_none.mpr (fun x hx => by simp [h x hx])
  have hany : todos.any (fun t => t.id == id) = false := by
    rw [Bool.eq_false_iff]
    intro hc
    rcases List.any_eq_true.mp hc with ⟨x, hx, hpx⟩
    exact h x hx (by simpa using hpx)
  refine ⟨?_, ?_, ?_, ?_, ?_⟩ <;>
    simp [toggleTodoOp, toggleTodayOp, setDueDateOp, setRecurrenceOp, deleteTodoOp, hfind, hany]

/-- C9 witness: a singleton collection and a foreign id. -/
theorem unknown_id_mutations_noop_witness :
    toggleTodoOp [{ id := "a", title := "t", completed := false, createdAt := 0 }] "b" 5
        (fun _ => ⟨2026, 1, 1⟩) "n" 6 =
      ([{ id := "a", title := "t", completed := false, createdAt := 0 }], false) ∧
    toggleTodayOp [{ id := "a", title := "t", completed := false, createdAt := 0 }] "b" =
      ([{ id := "a", title := "t", completed := false, createdAt := 0 }], false) ∧
    setDueDateOp [{ id := "a", title := "t", completed := false, createdAt := 0 }] "b"
        (some ⟨2026, 1, 2⟩) =
      ([{ id := "a", title := "t", completed := false, createdAt := 0 }], false) ∧
    setRecurrenceOp [{ id := "a", title := "t", completed := false, createdAt := 0 }] "b"
        { recurrenceType := RecurrenceType.weekly, weeklyWeekdays := [1], monthlyDay := none } =
      ([{ id := "a", title := "t", completed := false, createdAt := 0 }], false) ∧
    deleteTodoOp [{ id := "a", title := "t", completed := false, createdAt := 0 }] "b" =
      ([{ id := "a", title := "t", completed := false, createdAt := 0 }], false) :=
  unknown_id_mutations_noop _ "b" 5 (fun _ => ⟨2026, 1, 1⟩) "n" 6 (some ⟨2026, 1, 2⟩)
    { recurrenceType := RecurrenceType.weekly, weeklyWeekdays := [1], monthlyDay := none }
    (by decide)

theorem parseMemo_length (s : String) : (parseMemo s).length ≤ 2000 := by
  unfold parseMemo
  show ((jsTrim s).toList.take 2000).length ≤ 2000
  rw [List.length_take]
  omega

/-- C10: a created task stores the trimmed memo truncated to 2000
characters, an empty-after-trim memo as absent; so a stored memo is
non-empty and at most 2000 characters long (and an empty-after-trim title
creates nothing at all). -/
theorem createTodo_memo_spec (todos : List Todo) (body : CreateTodoForm)
    (createdAt : Int) (newId : String) :
    (jsTrim body.title = "" → createTodoOp todos body createdAt newId = (todos, false)) ∧
    (jsTrim body.title ≠ "" →
      ∃ t : Todo, createTodoOp todos body createdAt newId = (todos ++ [t], true) ∧
        t.memo = (if parseMemo body.memo = "" then none else some (parseMemo body.memo)) ∧
        (∀ m, t.memo = some m → m ≠ "" ∧ m.length ≤ 2000)) := by
  constructor
  · intro ht
    simp [createTodoOp, ht]
  · intro ht
    refine ⟨{ id := newId, title := jsTrim body.title, completed := false,
              createdAt := createdAt, completedAt := none,
              recurrence := buildRecurrenceSetting body.recurrenceType
                (parseWeeklyWeekdays body.weeklyWeekdays) (parseMonthlyDay body.monthlyDay),
              hasGeneratedNextOccurrence := some false, dueDate := body.dueDate,
              isToday := some (body.isToday || body.filter == "today"),
              memo := if parseMemo body.memo = "" then none
                      else some (parseMemo body.memo) }, ?_, rfl, ?_⟩
    · simp [createTodoOp, ht]
    intro m hm
    by_cases hmm : parseMemo body.memo = ""
    · rw [if_pos hmm] at hm
      exact absurd hm (by simp)
    · rw [if_neg hmm] at hm
      injection hm with hm
      subst hm
      exact ⟨hmm, parseMemo_length body.memo⟩

/-- C10 witness: a concrete create request with a padded title and memo. -/
theorem createTodo_memo_spec_witness :
    jsTrim " task " ≠ "" ∧
    (∃ t : Todo,
      createTodoOp []
          { title := " task ", dueDate := none, memo := "  note  ", isToday := false,
            recurrenceType := RecurrenceType.noRule, weeklyWeekdays := [],
            monthlyDay := none, filter := "" } 7 "id1" = ([] ++ [t], true) ∧
      t.memo = (if parseMemo "  note  " = "" then none else some (parseMemo "  note  ")) ∧
      (∀ m, t.memo = some m → m ≠ "" ∧ m.length ≤ 2000)) :=
  ⟨by decide,
   (createTodo_memo_spec []
      { title := " task ", dueDate := none, memo := "  note  ", isToday := false,
        recurrenceType := RecurrenceType.noRule, weeklyWeekdays := [],
        monthlyDay := none, filter := "" } 7 "id1").2 (by decide)⟩

theorem dateCompare_next_month (y m dy d2 : Int) (hm : m < 12) :
    dateCompare ⟨y, m, dy⟩ ⟨y, m + 1, d2⟩ = -1 := by
  unfold dateCompare
  dsimp only
  split_ifs <;> omega

theorem dateCompare_next_year (y dy d2 : Int) :
    dateCompare ⟨y, 12, dy⟩ ⟨y + 1, 1, d2⟩ = -1 := by
  unfold dateCompare
  dsimp only
  split_ifs <;> omega

theorem addMonthsOne_year (d : PlainDate) :
    (addMonthsOne d).year = (if d.month = 12 then d.year + 1 else d.year) := by
  unfold addMonthsOne
  split_ifs <;> rfl

theorem addMonthsOne_month (d : PlainDate) :
    (addMonthsOne d).month = (if d.month = 12 then 1 else d.month + 1) := by
  unfold addMonthsOne
  split_ifs <;> rfl

/-- C3: the monthly resolver clamps the target day to the base month's
length, moves to the next month and reclamps when the clamped candidate is
on or before the base, always lands strictly after the base with a day
never exceeding its month's length, and maps day 31 from 2026-03-31 to
2026-04-30. -/
theorem calculateNextDueDate_monthly_spec :
    (∀ (dayOfMonth : Int) (base : PlainDate),
      1 ≤ dayOfMonth → dayOfMonth ≤ 31 → base.Valid →
      ∃ r : PlainDate,
        calculateNextDueDateFromRecurrence (RecurrenceSetting.monthly dayOfMonth) base = some r ∧
        r = (if dateCompare ⟨base.year, base.month, resolveMonthlyDay base.year base.month dayOfMonth⟩ base ≤ 0
             then ⟨(addMonthsOne base).year, (addMonthsOne base).month,
                   resolveMonthlyDay (addMonthsOne base).year (addMonthsOne base).month dayOfMonth⟩
             else ⟨base.year, base.month, resolveMonthlyDay base.year base.month dayOfMonth⟩) ∧
        dateCompare base r = -1 ∧
        r.day ≤ daysInMonth r.year r.month) ∧
    calculateNextDueDateFromRecurrence (RecurrenceSetting.monthly 31) ⟨2026, 3, 31⟩ =
      some ⟨2026, 4, 30⟩ := by
  refine ⟨?_, by decide⟩
  intro dom base h1 h31 hv
  obtain ⟨hb1, hb2, hb3, hb4⟩ := hv
  by_cases hc : dateCompare ⟨base.year, base.month, resolveMonthlyDay base.year base.month dom⟩ base ≤ 0
  · refine ⟨⟨(addMonthsOne base).year, (addMonthsOne base).month,
        resolveMonthlyDay (addMonthsOne base).year (addMonthsOne base).month dom⟩,
      ?_, ?_, ?_, ?_⟩
    · simp only [calculateNextDueDateFromRecurrence]
      rw [if_pos hc]
    · rw [if_pos hc]
    · rw [addMonthsOne_year, addMonthsOne_month]
      by_cases hm : base.month = 12
      · rw [if_pos hm, if_pos hm]
        rcases base with ⟨y, m, dy⟩
        dsimp only at hm ⊢
        subst hm
        exact dateCompare_next_year y dy _
      · rw [if_neg hm, if_neg hm]
        rcases base with ⟨y, m, dy⟩
        dsimp only at hm hb2 ⊢
        exact dateCompare_next_month y m dy _ (by omega)
    · unfold resolveMonthlyDay
      dsimp only
      exact min_le_right _ _
  · refine ⟨⟨base.year, base.month, resolveMonthlyDay base.year base.month dom⟩,
      ?_, ?_, ?_, ?_⟩
    · simp only [calculateNextDueDateFromRecurrence]
      rw [if_neg hc]
    · rw [if_neg hc]
    · rcases dateCompare_trichotomy ⟨base.year, base.month,
        resolveMonthlyDay base.year base.month dom⟩ base with ht | ht | ht
      · omega
      · omega
      · exact (dateCompare_flip _ _).mp ht
    · unfold resolveMonthlyDay
      dsimp only
      exact min_le_right _ _

theorem weeklyOffset_bounds (cw w : Int) :
    1 ≤ weeklyOffset cw w ∧ weeklyOffset cw w ≤ 7 := by
  simp only [weeklyOffset]
  split_ifs <;> omega

theorem dayOfWeekMod_addDays {d : PlainDate} (hv : d.Valid) (n : Nat) :
    dayOfWeek (addDays d n) % 7 = (dayOfWeek d % 7 + n) % 7 := by
  have h := toEpochDays_addDays hv n
  unfold dayOfWeek
  omega

/-- C2: the weekly resolver returns the base date plus the minimum over
the weekday set of the offsets `(w - weekday(base) + 7) % 7` with 0 mapped
to 7; the result is strictly after the base, at most 7 days after it, and
its weekday (Sunday = 0) is in the set.  An empty weekday set yields none,
and weekdays [1,3,5] from Monday 2026-02-16 yield 2026-02-18. -/
theorem calculateNextDueDate_weekly_spec :
    (∀ (weekdays : List Int) (base : PlainDate),
      weekdays ≠ [] → (∀ w ∈ weekdays, 0 ≤ w ∧ w ≤ 6) → base.Valid →
      ∃ k : Int,
        calculateNextDueDateFromRecurrence (RecurrenceSetting.weekly weekdays) base =
          some (addDaysInt base k) ∧
        k ∈ weekdays.map (weeklyOffset (dayOfWeek base % 7)) ∧
        (∀ o ∈ weekdays.map (weeklyOffset (dayOfWeek base % 7)), k ≤ o) ∧
        1 ≤ k ∧ k ≤ 7 ∧
        dateCompare base (addDaysInt base k) = -1 ∧
        dayOfWeek (addDaysInt base k) % 7 ∈ weekdays) ∧
    (∀ base : PlainDate,
      calculateNextDueDateFromRecurrence (RecurrenceSetting.weekly []) base = none) ∧
    calculateNextDueDateFromRecurrence (RecurrenceSetting.weekly [1, 3, 5]) ⟨2026, 2, 16⟩ =
      some ⟨2026, 2, 18⟩ := by
  refine ⟨?_, ?_, by decide⟩
  · intro W base hne hw hv
    have hmapne : W.map (weeklyOffset (dayOfWeek base % 7)) ≠ [] := by
      cases W <;> simp_all
    obtain ⟨k, hk⟩ := @jsSort_head_of_ne_nil Int subCompare _ hmapne
    obtain ⟨hkmem, hkmin⟩ := jsSort_subCompare_head_min hk
    obtain ⟨w0, hw0, hkw⟩ := List.mem_map.mp hkmem
    have hw0b := hw w0 hw0
    have hkb : 1 ≤ k ∧ k ≤ 7 := by
      rw [← hkw]
      exact weeklyOffset_bounds _ _
    refine ⟨k, ?_, hkmem, hkmin, hkb.1, hkb.2, ?_, ?_⟩
    · simp only [calculateNextDueDateFromRecurrence]
      rw [hk]
    · rw [addDaysInt_nonneg base k (by omega)]
      refine dateCompare_of_toEpochDays_lt hv (addDays_valid hv _) ?_
      rw [toEpochDays_addDays hv]
      omega
    · have hmem : dayOfWeek (addDaysInt base k) % 7 = w0 := by
        rw [addDaysInt_nonneg base k (by omega), dayOfWeekMod_addDays hv]
        simp only [weeklyOffset] at hkw
        split_ifs at hkw <;> omega
      rw [hmem]
      exact hw0
  · intro base
    simp [calculateNextDueDateFromRecurrence, jsSort]

/-- C2 witness: the concrete rule [1,3,5] on the Monday 2026-02-16
satisfies all three hypotheses. -/
theorem calculateNextDueDate_weekly_spec_witness :
    ([1, 3, 5] ≠ ([] : List Int)) ∧
    (∀ w ∈ ([1, 3, 5] : List Int), 0 ≤ w ∧ w ≤ 6) ∧
    (⟨2026, 2, 16⟩ : PlainDate).Valid ∧
    (∃ k : Int,
      calculateNextDueDateFromRecurrence (RecurrenceSetting.weekly [1, 3, 5]) ⟨2026, 2, 16⟩ =
        some (addDaysInt ⟨2026, 2, 16⟩ k) ∧
      k ∈ ([1, 3, 5] : List Int).map (weeklyOffset (dayOfWeek ⟨2026, 2, 16⟩ % 7)) ∧
      (∀ o ∈ ([1, 3, 5] : List Int).map (weeklyOffset (dayOfWeek ⟨2026, 2, 16⟩ % 7)), k ≤ o) ∧
      1 ≤ k ∧ k ≤ 7 ∧
      dateCompare ⟨2026, 2, 16⟩ (addDaysInt ⟨2026, 2, 16⟩ k) = -1 ∧
      dayOfWeek (addDaysInt ⟨2026, 2, 16⟩ k) % 7 ∈ ([1, 3, 5] : List Int)) :=
  ⟨by decide, by decide, by decide,
   calculateNextDueDate_weekly_spec.1 [1, 3, 5] ⟨2026, 2, 16⟩ (by decide) (by decide) (by decide)⟩

theorem setRecurrenceOp_find (todos : List Todo) (id : String) (form : RecurrenceForm)
    (todo : Todo) (newRec : Option RecurrenceSetting)
    (hfind : List.find? (fun t => t.id == id) todos = some todo)
    (hnew : buildRecurrenceSetting form.recurrenceType (parseWeeklyWeekdays form.weeklyWeekdays)
        (parseMonthlyDay form.monthlyDay) = newRec) :
    List.find? (fun t => t.id == id) (setRecurrenceOp todos id form).1 =
      some (if newRec = none then
              { todo with recurrence := newRec, hasGeneratedNextOccurrence := none }
            else if todo.recurrence ≠ newRec then
              { todo with recurrence := newRec, hasGeneratedNextOccurrence := some false }
            else { todo with recurrence := newRec }) := by
  subst hnew
  have hpt := List.find?_some hfind
  simp only [setRecurrenceOp, hfind]
  refine find?_updateFirst hfind ?_
  dsimp only
  split_ifs <;> simpa using hpt

/-- C4: `setRecurrence` clears the guard entirely when the rule is
removed, resets it to false exactly when the new rule differs by value
from the stored one (weekday lists canonicalized by the schema's dedupe
and ascending sort), and leaves the guard untouched when the new rule is
value-equal — in particular when the same weekday set arrives listed in a
different order. -/
theorem setRecurrenceOp_guard_spec (todos : List Todo) (id : String) (form : RecurrenceForm)
    (todo : Todo) (hfind : List.find? (fun t => t.id == id) todos = some todo) :
    (buildRecurrenceSetting form.recurrenceType (parseWeeklyWeekdays form.weeklyWeekdays)
        (parseMonthlyDay form.monthlyDay) = none →
      List.find? (fun t => t.id == id) (setRecurrenceOp todos id form).1 =
        some { todo with recurrence := none, hasGeneratedNextOccurrence := none }) ∧
    (∀ r : RecurrenceSetting,
      buildRecurrenceSetting form.recurrenceType (parseWeeklyWeekdays form.weeklyWeekdays)
          (parseMonthlyDay form.monthlyDay) = some r →
      todo.recurrence ≠ some r →
      List.find? (fun t => t.id == id) (setRecurrenceOp todos id form).1 =
        some { todo with recurrence := some r, hasGeneratedNextOccurrence := some false }) ∧
    (∀ r : RecurrenceSetting,
      buildRecurrenceSetting form.recurrenceType (parseWeeklyWeekdays form.weeklyWeekdays)
          (parseMonthlyDay form.monthlyDay) = some r →
      todo.recurrence = some r →
      List.find? (fun t => t.id == id) (setRecurrenceOp todos id form).1 =
          some { todo with recurrence := some r } ∧
        ({ todo with recurrence := some r } : Todo).hasGeneratedNextOccurrence =
          todo.hasGeneratedNextOccurrence) ∧
    (∀ (raw0 raw1 : List Int) (md : Option Int),
      todo.recurrence = some (RecurrenceSetting.weekly (parseWeeklyWeekdays raw0)) →
      parseWeeklyWeekdays raw1 = parseWeeklyWeekdays raw0 →
      parseWeeklyWeekdays raw1 ≠ [] →
      form = { recurrenceType := RecurrenceType.weekly, weeklyWeekdays := raw1,
               monthlyDay := md } →
      ∃ t' : Todo,
        List.find? (fun t => t.id == id) (setRecurrenceOp todos id form).1 = some t' ∧
        t'.hasGeneratedNextOccurrence = todo.hasGeneratedNextOccurrence) := by
  refine ⟨?_, ?_, ?_, ?_⟩
  · intro h
    rw [setRecurrenceOp_find todos id form todo none hfind h]
    simp
  · intro r h hne
    rw [setRecurrenceOp_find todos id form todo (some r) hfind h]
    simp [hne]
  · intro r h heq
    rw [setRecurrenceOp_find todos id form todo (some r) hfind h]
    refine ⟨by simp [heq], rfl⟩
  · intro raw0 raw1 md hstored hperm hne hform
    subst hform
    have hbuild : buildRecurrenceSetting RecurrenceType.weekly (parseWeeklyWeekdays raw1)
        (parseMonthlyDay md) = some (RecurrenceSetting.weekly (parseWeeklyWeekdays raw1)) := by
      unfold buildRecurrenceSetting
      rw [if_pos ⟨rfl, List.length_pos.mpr hne⟩]
    have heq : todo.recurrence = some (RecurrenceSetting.weekly (parseWeeklyWeekdays raw1)) := by
      rw [hstored, hperm]
    refine ⟨{ todo with recurrence := some (RecurrenceSetting.weekly (parseWeeklyWeekdays raw1)) },
      ?_, rfl⟩
    rw [setRecurrenceOp_find todos id _ todo
      (some (RecurrenceSetting.weekly (parseWeeklyWeekdays raw1))) hfind hbuild]
    simp [heq]

/-- C4 witness: the stored rule is the canonical image of [1,3]; the form
resubmits the same weekday set as [3,1] and the guard survives. -/
theorem setRecurrenceOp_guard_spec_witness :
    ∃ t' : Todo,
      List.find? (fun t => t.id == "a")
          (setRecurrenceOp
            [{ id := "a", title := "t", completed := false, createdAt := 0,
               recurrence := some (RecurrenceSetting.weekly (parseWeeklyWeekdays [1, 3])),
               hasGeneratedNextOccurrence := some true }]
            "a"
            { recurrenceType := RecurrenceType.weekly, weeklyWeekdays := [3, 1],
              monthlyDay := none }).1 = some t' ∧
      t'.hasGeneratedNextOccurrence =
        ({ id := "a", title := "t", completed := false, createdAt := 0,
           recurrence := some (RecurrenceSetting.weekly (parseWeeklyWeekdays [1, 3])),
           hasGeneratedNextOccurrence := some true } : Todo).hasGeneratedNextOccurrence :=
  (setRecurrenceOp_guard_spec
      [{ id := "a", title := "t", completed := false, createdAt := 0,
         recurrence := some (RecurrenceSetting.weekly (parseWeeklyWeekdays [1, 3])),
         hasGeneratedNextOccurrence := some true }]
      "a"
      { recurrenceType := RecurrenceType.weekly, weeklyWeekdays := [3, 1], monthlyDay := none }
      { id := "a", title := "t", completed := false, createdAt := 0,
        recurrence := some (RecurrenceSetting.weekly (parseWeeklyWeekdays [1, 3])),
        hasGeneratedNextOccurrence := some true }
      (by decide)).2.2.2 [1, 3] [3, 1] none (by decide) (by decide) (by decide) rfl

theorem toggleTodoOp_complete (todos : List Todo) (id : String) (now : Int)
    (tz : Int → PlainDate) (nextId : String) (nextCreatedAt : Int)
    (todo : Todo) (r : RecurrenceSetting) (d : PlainDate)
    (hfind : List.find? (fun t => t.id == id) todos = some todo)
    (hc : todo.completed = false)
    (hrec : todo.recurrence = some r)
    (hg : truthy todo.hasGeneratedNextOccurrence = false)
    (hres : calculateNextDueDateFromRecurrence r (todo.dueDate.getD (tz todo.createdAt)) = some d) :
    toggleTodoOp todos id now tz nextId nextCreatedAt =
      (updateFirst (fun t => t.id == id)
          (fun _ => { todo with completed := true, completedAt := some now, hasGeneratedNextOccurrence := some true }) todos ++
        [{ id := nextId, title := todo.title, completed := false, createdAt := nextCreatedAt,
           completedAt := none, recurrence := some r, hasGeneratedNextOccurrence := some false,
           dueDate := some d, isToday := some false, memo := todo.memo }], true) := by
  simp only [toggleTodoOp, hfind, hc, completeTodoAndMaybeGenerateNext, hrec, hg, hres]
  simp

theorem toggleTodoOp_uncomplete (todos : List Todo) (id : String) (now : Int)
    (tz : Int → PlainDate) (nextId : String) (nextCreatedAt : Int) (todo : Todo)
    (hfind : List.find? (fun t => t.id == id) todos = some todo)
    (hc : todo.completed = true) :
    toggleTodoOp todos id now tz nextId nextCreatedAt =
      (updateFirst (fun t => t.id == id)
        (fun _ => { todo with completed := false, completedAt := none }) todos, true) := by
  simp only [toggleTodoOp, hfind, hc]
  simp

theorem toggleTodoOp_complete_guarded (todos : List Todo) (id : String) (now : Int)
    (tz : Int → PlainDate) (nextId : String) (nextCreatedAt : Int)
    (todo : Todo) (r : RecurrenceSetting)
    (hfind : List.find? (fun t => t.id == id) todos = some todo)
    (hc : todo.completed = false)
    (hrec : todo.recurrence = some r)
    (hg : truthy todo.hasGeneratedNextOccurrence = true) :
    toggleTodoOp todos id now tz nextId nextCreatedAt =
      (updateFirst (fun t => t.id == id)
        (fun _ => { todo with completed := true, completedAt := some now }) todos, true) := by
  simp only [toggleTodoOp, hfind, hc, completeTodoAndMaybeGenerateNext, hrec, hg]
  simp

/-- C1: toggling a recurring, unguarded, incomplete task to completed,
back, and to completed again appends exactly one generated sibling in
total: the first completion (whose resolver call yields a date) grows the
collection by one and sets the guard; the reopen removes nothing and
keeps the guard; the second completion appends nothing. -/
theorem toggle_thrice_one_sibling (todos : List Todo) (id : String) (tz : Int → PlainDate)
    (now1 now2 now3 c1 c2 c3 : Int) (i1 i2 i3 : String)
    (todo : Todo) (r : RecurrenceSetting) (d : PlainDate)
    (hfind : List.find? (fun t => t.id == id) todos = some todo)
    (hc : todo.completed = false)
    (hrec : todo.recurrence = some r)
    (hg : truthy todo.hasGeneratedNextOccurrence = false)
    (hres : calculateNextDueDateFromRecurrence r (todo.dueDate.getD (tz todo.createdAt)) = some d) :
    ((toggleTodoOp todos id now1 tz i1 c1).1.length = todos.length + 1) ∧
    ((toggleTodoOp (toggleTodoOp todos id now1 tz i1 c1).1 id now2 tz i2 c2).1.length =
      (toggleTodoOp todos id now1 tz i1 c1).1.length) ∧
    ((toggleTodoOp (toggleTodoOp (toggleTodoOp todos id now1 tz i1 c1).1 id now2 tz i2 c2).1
        id now3 tz i3 c3).1.length =
      (toggleTodoOp (toggleTodoOp todos id now1 tz i1 c1).1 id now2 tz i2 c2).1.length) ∧
    (∃ t1 : Todo,
      List.find? (fun t => t.id == id) (toggleTodoOp todos id now1 tz i1 c1).1 = some t1 ∧
      t1.hasGeneratedNextOccurrence = some true ∧ t1.completed = true) ∧
    (∃ t2 : Todo,
      List.find? (fun t => t.id == id)
          (toggleTodoOp (toggleTodoOp todos id now1 tz i1 c1).1 id now2 tz i2 c2).1 = some t2 ∧
      t2.hasGeneratedNextOccurrence = some true ∧ t2.completed = false) ∧
    (∃ t3 : Todo,
      List.find? (fun t => t.id == id)
          (toggleTodoOp (toggleTodoOp (toggleTodoOp todos id now1 tz i1 c1).1 id now2 tz i2 c2).1
            id now3 tz i3 c3).1 = some t3 ∧
      t3.hasGeneratedNextOccurrence = some true ∧ t3.completed = true) := by
  have hpt := List.find?_some hfind
  have h1 := toggleTodoOp_complete todos id now1 tz i1 c1 todo r d hfind hc hrec hg hres
  have hs1 : (toggleTodoOp todos id now1 tz i1 c1).1 =
      updateFirst (fun t => t.id == id)
          (fun _ => { todo with completed := true, completedAt := some now1, hasGeneratedNextOccurrence := some true }) todos ++
        [{ id := i1, title := todo.title, completed := false, createdAt := c1,
           completedAt := none, recurrence := some r, hasGeneratedNextOccurrence := some false,
           dueDate := some d, isToday := some false, memo := todo.memo }] := by
    rw [h1]
  have hp1 : (fun t : Todo => t.id == id)
      { todo with completed := true, completedAt := some now1, hasGeneratedNextOccurrence := some true } = true := hpt
  have hf1 : List.find? (fun t => t.id == id) (toggleTodoOp todos id now1 tz i1 c1).1 =
      some { todo with completed := true, completedAt := some now1, hasGeneratedNextOccurrence := some true } := by
    rw [hs1]
    exact find?_append_left (find?_updateFirst hfind hp1)
  have h2 := toggleTodoOp_uncomplete (toggleTodoOp todos id now1 tz i1 c1).1 id now2 tz i2 c2
    _ hf1 rfl
  have hs2 : (toggleTodoOp (toggleTodoOp todos id now1 tz i1 c1).1 id now2 tz i2 c2).1 =
      updateFirst (fun t => t.id == id)
        (fun _ => { todo with completed := false, completedAt := none, hasGeneratedNextOccurrence := some true })
        (toggleTodoOp todos id now1 tz i1 c1).1 := by
    rw [h2]
  have hp2 : (fun t : Todo => t.id == id)
      { todo with completed := false, completedAt := none, hasGeneratedNextOccurrence := some true } = true := hpt
  have hf2 : List.find? (fun t => t.id == id)
      (toggleTodoOp (toggleTodoOp todos id now1 tz i1 c1).1 id now2 tz i2 c2).1 =
      some { todo with completed := false, completedAt := none, hasGeneratedNextOccurrence := some true } := by
    rw [hs2]
    exact find?_updateFirst hf1 hp2
  have h3 := toggleTodoOp_complete_guarded
    (toggleTodoOp (toggleTodoOp todos id now1 tz i1 c1).1 id now2 tz i2 c2).1 id now3 tz i3 c3
    _ r hf2 rfl hrec rfl
  have hs3 : (toggleTodoOp (toggleTodoOp (toggleTodoOp todos id now1 tz i1 c1).1 id
        now2 tz i2 c2).1 id now3 tz i3 c3).1 =
      updateFirst (fun t => t.id == id)
        (fun _ => { todo with completed := true, completedAt := some now3, hasGeneratedNextOccurrence := some true })
        (toggleTodoOp (toggleTodoOp todos id now1 tz i1 c1).1 id now2 tz i2 c2).1 := by
    rw [h3]
  have hp3 : (fun t : Todo => t.id == id)
      { todo with completed := true, completedAt := some now3, hasGeneratedNextOccurrence := some true } = true := hpt
  have hf3 : List.find? (fun t => t.id == id)
      (toggleTodoOp (toggleTodoOp (toggleTodoOp todos id now1 tz i1 c1).1 id
        now2 tz i2 c2).1 id now3 tz i3 c3).1 =
      some { todo with completed := true, completedAt := some now3, hasGeneratedNextOccurrence := some true } := by
    rw [hs3]
    exact find?_updateFirst hf2 hp3
  refine ⟨?_, ?_, ?_, ⟨_, hf1, rfl, rfl⟩, ⟨_, hf2, rfl, rfl⟩, ⟨_, hf3, rfl, rfl⟩⟩
  · rw [hs1]
    simp [updateFirst_length]
  · rw [hs2]
    simp [updateFirst_length]
  · rw [hs3]
    simp [updateFirst_length]

/-- C1 witness: a weekly-recurring task due Monday 2026-02-16, toggled
completed, reopened, and completed again. -/
theorem toggle_thrice_one_sibling_witness :
    ((toggleTodoOp
        [{ id := "a", title := "t", completed := false, createdAt := 0,
           recurrence := some (RecurrenceSetting.weekly [1]),
           hasGeneratedNextOccurrence := some false, dueDate := some ⟨2026, 2, 16⟩ }]
        "a" 10 (fun _ => ⟨2026, 1, 1⟩) "sib" 11).1.length =
      ([{ id := "a", title := "t", completed := false, createdAt := 0,
          recurrence := some (RecurrenceSetting.weekly [1]),
          hasGeneratedNextOccurrence := some false,
          dueDate := some ⟨2026, 2, 16⟩ }] : List Todo).length + 1) ∧
    ((toggleTodoOp (toggleTodoOp
        [{ id := "a", title := "t", completed := false, createdAt := 0,
           recurrence := some (RecurrenceSetting.weekly [1]),
           hasGeneratedNextOccurrence := some false, dueDate := some ⟨2026, 2, 16⟩ }]
        "a" 10 (fun _ => ⟨2026, 1, 1⟩) "sib" 11).1 "a" 20 (fun _ => ⟨2026, 1, 1⟩) "sib2" 21).1.length =
      (toggleTodoOp
        [{ id := "a", title := "t", completed := false, createdAt := 0,
           recurrence := some (RecurrenceSetting.weekly [1]),
           hasGeneratedNextOccurrence := some false, dueDate := some ⟨2026, 2, 16⟩ }]
        "a" 10 (fun _ => ⟨2026, 1, 1⟩) "sib" 11).1.length) ∧
    ((toggleTodoOp (toggleTodoOp (toggleTodoOp
        [{ id := "a", title := "t", completed := false, createdAt := 0,
           recurrence := some (RecurrenceSetting.weekly [1]),
           hasGeneratedNextOccurrence := some false, dueDate := some ⟨2026, 2, 16⟩ }]
        "a" 10 (fun _ => ⟨2026, 1, 1⟩) "sib" 11).1 "a" 20 (fun _ => ⟨2026, 1, 1⟩) "sib2" 21).1
        "a" 30 (fun _ => ⟨2026, 1, 1⟩) "sib3" 31).1.length =
      (toggleTodoOp (toggleTodoOp
        [{ id := "a", title := "t", completed := false, createdAt := 0,
           recurrence := some (RecurrenceSetting.weekly [1]),
           hasGeneratedNextOccurrence := some false, dueDate := some ⟨2026, 2, 16⟩ }]
        "a" 10 (fun _ => ⟨2026, 1, 1⟩) "sib" 11).1 "a" 20 (fun _ => ⟨2026, 1, 1⟩) "sib2" 21).1.length) ∧
    (∃ t1 : Todo,
      List.find? (fun t => t.id == "a") (toggleTodoOp
        [{ id := "a", title := "t", completed := false, createdAt := 0,
           recurrence := some (RecurrenceSetting.weekly [1]),
           hasGeneratedNextOccurrence := some false, dueDate := some ⟨2026, 2, 16⟩ }]
        "a" 10 (fun _ => ⟨2026, 1, 1⟩) "sib" 11).1 = some t1 ∧
      t1.hasGeneratedNextOccurrence = some true ∧ t1.completed = true) ∧
    (∃ t2 : Todo,
      List.find? (fun t => t.id == "a") (toggleTodoOp (toggleTodoOp
        [{ id := "a", title := "t", completed := false, createdAt := 0,
           recurrence := some (RecurrenceSetting.weekly [1]),
           hasGeneratedNextOccurrence := some false, dueDate := some ⟨2026, 2, 16⟩ }]
        "a" 10 (fun _ => ⟨2026, 1, 1⟩) "sib" 11).1 "a" 20 (fun _ => ⟨2026, 1, 1⟩) "sib2" 21).1 =
        some t2 ∧
      t2.hasGeneratedNextOccurrence = some true ∧ t2.completed = false) ∧
    (∃ t3 : Todo,
      List.find? (fun t => t.id == "a") (toggleTodoOp (toggleTodoOp (toggleTodoOp
        [{ id := "a", title := "t", completed := false, createdAt := 0,
           recurrence := some (RecurrenceSetting.weekly [1]),
           hasGeneratedNextOccurrence := some false, dueDate := some ⟨2026, 2, 16⟩ }]
        "a" 10 (fun _ => ⟨2026, 1, 1⟩) "sib" 11).1 "a" 20 (fun _ => ⟨2026, 1, 1⟩) "sib2" 21).1
        "a" 30 (fun _ => ⟨2026, 1, 1⟩) "sib3" 31).1 = some t3 ∧
      t3.hasGeneratedNextOccurrence = some true ∧ t3.completed = true) :=
  toggle_thrice_one_sibling
    [{ id := "a", title := "t", completed := false, createdAt := 0,
       recurrence := some (RecurrenceSetting.weekly [1]),
       hasGeneratedNextOccurrence := some false, dueDate := some ⟨2026, 2, 16⟩ }]
    "a" (fun _ => ⟨2026, 1, 1⟩) 10 20 30 11 21 31 "sib" "sib2" "sib3"
    { id := "a", title := "t", completed := false, createdAt := 0,
      recurrence := some (RecurrenceSetting.weekly [1]),
      hasGeneratedNextOccurrence := some false, dueDate := some ⟨2026, 2, 16⟩ }
    (RecurrenceSetting.weekly [1]) ⟨2026, 2, 23⟩
    (by decide) (by decide) (by decide) (by decide) (by decide)

/-- C3 witness: day-of-month 31 from the base date 2026-03-31. -/
theorem calculateNextDueDate_monthly_spec_witness :
    (1 : Int) ≤ 31 ∧ (31 : Int) ≤ 31 ∧ (⟨2026, 3, 31⟩ : PlainDate).Valid ∧
    (∃ r : PlainDate,
      calculateNextDueDateFromRecurrence (RecurrenceSetting.monthly 31) ⟨2026, 3, 31⟩ = some r ∧
      r = (if dateCompare ⟨(⟨2026, 3, 31⟩ : PlainDate).year, (⟨2026, 3, 31⟩ : PlainDate).month,
                resolveMonthlyDay (⟨2026, 3, 31⟩ : PlainDate).year
                  (⟨2026, 3, 31⟩ : PlainDate).month 31⟩ ⟨2026, 3, 31⟩ ≤ 0
           then ⟨(addMonthsOne ⟨2026, 3, 31⟩).year, (addMonthsOne ⟨2026, 3, 31⟩).month,
                 resolveMonthlyDay (addMonthsOne ⟨2026, 3, 31⟩).year
                   (addMonthsOne ⟨2026, 3, 31⟩).month 31⟩
           else ⟨(⟨2026, 3, 31⟩ : PlainDate).year, (⟨2026, 3, 31⟩ : PlainDate).month,
                 resolveMonthlyDay (⟨2026, 3, 31⟩ : PlainDate).year
                   (⟨2026, 3, 31⟩ : PlainDate).month 31⟩) ∧
      dateCompare ⟨2026, 3, 31⟩ r = -1 ∧
      r.day ≤ daysInMonth r.year r.month) :=
  ⟨by decide, by decide, by decide,
   calculateNextDueDate_monthly_spec.1 31 ⟨2026, 3, 31⟩ (by decide) (by decide) (by decide)⟩
